import Mathlib

/-!
Shallow embedding of `src/index.ts` (TimoWilhelm/hello-chat): a per-room chat
actor (`Chat` Durable Object) plus the top-level Worker router.

Modelling conventions:
* WebSocket handles are `Nat`s; `RoomState.sockets` is the list returned by
  `ctx.getWebSockets()` (in acceptance order), `RoomState.attachments` the
  identity attached with `serializeAttachment`.
* The Durable Object key-value store (`ctx.storage.kv`) is an ordered map:
  a list of (key, value) pairs kept sorted ascending by key.  Keys are the
  UTF-8 byte sequences of the string keys the code builds (all ASCII here),
  compared lexicographically byte-by-byte, which is exactly the key order of
  the underlying store; `kv.list({prefix})` iterates in that key order.
* Effects (`ws.send`, `console.error`, the HTTP response) are collected in a
  list of `Output`s; a `ws.send` that throws inside `broadcast`'s try/catch
  is recorded as `sendFail` (the logged, swallowed failure).
* The environment is explicit: `now` is `Date.now()`, `putFails` says whether
  `ctx.storage.kv.put` throws on this event, `sendFails w` whether `ws.send`
  to socket `w` throws.
* `JSON.parse(data)` and the destructuring `const { message } = parsed` are
  modelled by `IncomingData`: `.malformed` is the case where parse (or the
  destructuring, e.g. of `null`) throws, `.parsed fields` a successfully
  parsed object with its fields; a parsed scalar behaves like an object with
  no fields, i.e. `.parsed []`.
-/

namespace HelloChat

/-- Embeds the `ChatMessage` interface of the source (`message`, `name`,
optional `timestamp`).  Also used as the wire shape
`{message, name, timestamp}` serialized by `broadcast`/`sendChatHistory`. -/
structure ChatMessage where
  message : String
  name : String
  timestamp : Option Nat
deriving DecidableEq

/-- A JSON value as far as the handler inspects it: a string, or anything
else (numbers, booleans, null, objects, arrays are all rejected by the
`typeof message !== 'string'` / falsiness checks in the same way). -/
inductive JsonValue where
  | jstr (s : String)
  | jother
deriving DecidableEq

/-- Result of `JSON.parse(data)` followed by `const { message } = parsed`. -/
inductive IncomingData where
  | malformed
  | parsed (fields : List (String × JsonValue))
deriving DecidableEq

/-- Field lookup in a parsed JSON object. -/
def getField : List (String × JsonValue) → String → Option JsonValue
  | [], _ => none
  | (k, v) :: rest, key => if k = key then some v else getField rest key

/-- Embeds JavaScript `String.prototype.trim()`: strip whitespace from both
ends. -/
def jsTrim (s : String) : String :=
  ⟨((s.data.dropWhile Char.isWhitespace).reverse.dropWhile Char.isWhitespace).reverse⟩

/-- Observable effects of one handler invocation. -/
inductive Output where
  | send (dest : Nat) (msg : ChatMessage)
  | sendFail (dest : Nat)
  | logErr (s : String)
  | response (status : Nat)
deriving DecidableEq

/-- Does this output attempt to deliver data to a client socket? -/
def isClientSend : Output → Bool
  | .send _ _ => true
  | .sendFail _ => true
  | _ => false

/-- The socket an output targets, if any. -/
def outTarget : Output → Option Nat
  | .send w _ => some w
  | .sendFail w => some w
  | _ => none

/-- State owned by one `Chat` Durable Object instance. -/
structure RoomState where
  sockets : List Nat
  attachments : List (Nat × String)
  kv : List (List Nat × ChatMessage)
deriving DecidableEq

/-- `ws.deserializeAttachment()` followed by destructuring `{ name }`. -/
def getAttachment : List (Nat × String) → Nat → Option String
  | [], _ => none
  | (w, n) :: rest, ws => if w = ws then some n else getAttachment rest ws

/-- `pair[0].serializeAttachment({ name })`. -/
def setAttachment (l : List (Nat × String)) (ws : Nat) (n : String) : List (Nat × String) :=
  (ws, n) :: l

/-- Strict lexicographic order on byte sequences (the storage key order). -/
def lexLt : List Nat → List Nat → Bool
  | [], [] => false
  | [], _ :: _ => true
  | _ :: _, [] => false
  | a :: as, b :: bs => if a < b then true else if b < a then false else lexLt as bs

/-- `ctx.storage.kv.put(key, value)` on the ordered map: insert in key order,
overwriting an existing entry with the same key. -/
def kvPut : List (List Nat × ChatMessage) → List Nat → ChatMessage →
    List (List Nat × ChatMessage)
  | [], k, v => [(k, v)]
  | (k1, v1) :: rest, k, v =>
    if lexLt k k1 then (k, v) :: (k1, v1) :: rest
    else if k = k1 then (k, v) :: rest
    else (k1, v1) :: kvPut rest k v

/-- `ctx.storage.kv.list({prefix})`: the stored values whose key starts with
the given byte sequence, in ascending key order. -/
def kvList (kv : List (List Nat × ChatMessage)) (tag : List Nat) : List ChatMessage :=
  (kv.filter (fun e => tag.isPrefixOf e.1)).map (fun e => e.2)

/-- Little-endian decimal digits of `n + 1`-style fuel recursion (fuel ≥ n). -/
def decimalDigitsAux : Nat → Nat → List Nat
  | 0, _ => []
  | _ + 1, 0 => []
  | fuel + 1, n + 1 => ((n + 1) % 10) :: decimalDigitsAux fuel ((n + 1) / 10)

/-- Big-endian decimal digits of `t`, as rendered by `${t}` ("0" for 0). -/
def decimalDigits (t : Nat) : List Nat :=
  if t = 0 then [0] else (decimalDigitsAux t t).reverse

/-- UTF-8 bytes of the string `"msg_"`. -/
def msgTag : List Nat := [109, 115, 103, 95]

/-- Bytes of the storage key `` `msg_${timestamp}` `` built at line 64. -/
def msgKey (t : Nat) : List Nat :=
  msgTag ++ (decimalDigits t).map (fun d => 48 + d)

/-- The `broadcast` method (lines 103-116): send to every socket from
`getWebSockets()` except `self`; a throwing `send` is caught and logged
(recorded as `sendFail`), never aborting the loop. -/
def broadcastOuts (sockets : List Nat) (data : ChatMessage) (self : Nat)
    (sendFails : Nat → Bool) : List Output :=
  (sockets.filter (fun w => w != self)).map
    (fun w => if sendFails w then Output.sendFail w else Output.send w data)

/-- The `sendChatHistory` method (lines 91-100): list all `msg_`-prefixed
entries and send each, in stored order, to the one new socket. -/
def sendChatHistory (st : RoomState) (ws : Nat) : List Output :=
  (kvList st.kv msgTag).map (fun m => Output.send ws m)

/-- The text accepted by the validation at lines 45-51, after trimming:
`none` when parse failed, the `message` field is missing, not a string,
empty, or blank after trim. -/
def validText : IncomingData → Option String
  | .malformed => none
  | .parsed fields =>
    match getField fields "message" with
    | some (.jstr s) =>
      if s = "" then none
      else if jsTrim s = "" then none
      else some (jsTrim s)
    | _ => none

/-- The `webSocketMessage` handler (lines 43-71).  The whole body sits in one
try/catch: a throw from `JSON.parse`, from the attachment destructuring, or
from `kv.put` jumps to the catch, which logs and returns. -/
def webSocketMessage (st : RoomState) (ws : Nat) (data : IncomingData) (now : Nat)
    (putFails : Bool) (sendFails : Nat → Bool) : RoomState × List Output :=
  match data with
  | .malformed => (st, [Output.logErr "Error processing message:"])
  | .parsed fields =>
    match getField fields "message" with
    | some (.jstr s) =>
      if s = "" then (st, [])
      else if jsTrim s = "" then (st, [])
      else
        match getAttachment st.attachments ws with
        | none => (st, [Output.logErr "Error processing message:"])
        | some name =>
          let chatMessage : ChatMessage := ⟨jsTrim s, name, some now⟩
          if putFails then (st, [Output.logErr "Error processing message:"])
          else
            ({ st with kv := kvPut st.kv (msgKey now) chatMessage },
              broadcastOuts st.sockets chatMessage ws sendFails)
    | _ => (st, [])

/-- `url.searchParams.get('name')?.trim() || 'Anonymous'` (line 24). -/
def resolveName (nameParam : Option String) : String :=
  match nameParam with
  | none => "Anonymous"
  | some s => if jsTrim s = "" then "Anonymous" else jsTrim s

/-- The `Chat.fetch` handler (lines 12-40): on a `/ws` upgrade request,
accept the socket, bind the identity, broadcast the `Connected` notice to
the others, replay history point-to-point to the new socket, answer 101;
otherwise answer 404. -/
def connectFetch (st : RoomState) (pathIsWs upgradeHdr : Bool) (nameParam : Option String)
    (newWs : Nat) (sendFails : Nat → Bool) : RoomState × List Output :=
  if pathIsWs && upgradeHdr then
    let sockets2 := st.sockets ++ [newWs]
    let name := resolveName nameParam
    let attachments2 := setAttachment st.attachments newWs name
    let st2 : RoomState := { st with sockets := sockets2, attachments := attachments2 }
    let joinOuts := broadcastOuts sockets2 ⟨"Connected", name, none⟩ newWs sendFails
    let histOuts := sendChatHistory st2 newWs
    (st2, joinOuts ++ histOuts ++ [Output.response 101])
  else
    (st, [Output.response 404])

/-- The `webSocketClose` handler (lines 74-82): read the identity, broadcast
the `Disconnected` notice excluding the departing socket; a failing
attachment read is caught and logged. -/
def webSocketClose (st : RoomState) (ws : Nat) (code : Nat) (reason : String)
    (wasClean : Bool) (sendFails : Nat → Bool) : RoomState × List Output :=
  match getAttachment st.attachments ws with
  | none => (st, [Output.logErr "Error handling disconnect:"])
  | some name => (st, broadcastOuts st.sockets ⟨"Disconnected", name, none⟩ ws sendFails)

/-- The `webSocketError` handler (lines 85-88): log only. -/
def webSocketError (st : RoomState) (ws : Nat) (err : String) : RoomState × List Output :=
  (st, [Output.logErr "WebSocket error:"])

/-- An inbound request as seen by the top-level Worker. -/
structure WorkerRequest where
  room : Option String
  nameParam : Option String
  pathIsWs : Bool
  upgradeHdr : Bool
deriving DecidableEq

/-- The Worker's room selection (line 125):
`url.searchParams.get('room') || 'default'`.  The resulting name is what
`idFromName` keys the actor instance by, so equal results mean the same
room actor. -/
def workerRoute (req : WorkerRequest) : String :=
  match req.room with
  | none => "default"
  | some s => if s = "" then "default" else s

/-- Fold a sequence of valid inbound message events (text, Date.now value)
through `webSocketMessage` from one sender, with storage and sends
succeeding. -/
def runMessages (st : RoomState) (ws : Nat) (events : List (String × Nat)) : RoomState :=
  events.foldl
    (fun s e =>
      (webSocketMessage s ws (.parsed [("message", .jstr e.1)]) e.2 false (fun _ => false)).1)
    st

/-! ### Helper lemmas: the lexicographic key order -/

theorem lexLt_append (p a b : List Nat) : lexLt (p ++ a) (p ++ b) = lexLt a b := by
  induction p with
  | nil => rfl
  | cons x p ih => simp [lexLt, ih]

theorem lexLt_irrefl (a : List Nat) : lexLt a a = false := by
  induction a with
  | nil => rfl
  | cons x a ih => simp [lexLt, ih]

theorem lexLt_asymm {a b : List Nat} (h : lexLt a b = true) : lexLt b a = false := by
  induction a generalizing b with
  | nil =>
    cases b with
    | nil => simp [lexLt] at h
    | cons y bs => rfl
  | cons x as ih =>
    cases b with
    | nil => simp [lexLt] at h
    | cons y bs =>
      rcases Nat.lt_trichotomy x y with hxy | hxy | hxy
      · have hyx : ¬ y < x := by omega
        simp [lexLt, hxy, hyx, Nat.lt_irrefl]
      · subst hxy
        simp only [lexLt, Nat.lt_irrefl, if_false] at h ⊢
        exact ih h
      · have hxy2 : ¬ x < y := by omega
        simp [lexLt, hxy, hxy2] at h

theorem lexLt_ne {a b : List Nat} (h : lexLt a b = true) : a ≠ b := by
  intro e
  subst e
  rw [lexLt_irrefl] at h
  exact Bool.noConfusion h

theorem lexLt_map_add (c : Nat) (a b : List Nat) :
    lexLt (a.map (fun d => c + d)) (b.map (fun d => c + d)) = lexLt a b := by
  induction a generalizing b with
  | nil => cases b <;> rfl
  | cons x as ih =>
    cases b with
    | nil => rfl
    | cons y bs => simp [lexLt, Nat.add_lt_add_iff_left, ih]

/-! ### Helper lemmas: decimal digits are value-faithful -/

/-- Value of a big-endian digit list. -/
def valBE (l : List Nat) : Nat := l.foldl (fun acc d => acc * 10 + d) 0

/-- Value of a little-endian digit list. -/
def ofDigitsLE (l : List Nat) : Nat := l.foldr (fun d acc => d + 10 * acc) 0

theorem foldl_val (l : List Nat) (a : Nat) :
    l.foldl (fun acc d => acc * 10 + d) a = a * 10 ^ l.length + valBE l := by
  induction l generalizing a with
  | nil => simp [valBE]
  | cons d l ih =>
    simp only [List.foldl_cons, List.length_cons, valBE, Nat.zero_mul, Nat.zero_add]
    rw [ih (a * 10 + d), ih d]
    ring

theorem valBE_cons (d : Nat) (l : List Nat) :
    valBE (d :: l) = d * 10 ^ l.length + valBE l := by
  simp only [valBE, List.foldl_cons, Nat.zero_mul, Nat.zero_add]
  rw [foldl_val]
  simp only [valBE]

theorem valBE_lt (l : List Nat) (h : ∀ d ∈ l, d < 10) : valBE l < 10 ^ l.length := by
  induction l with
  | nil => simp [valBE]
  | cons d l ih =>
    have hd : d < 10 := h d (List.mem_cons_self d l)
    have hl := ih (fun x hx => h x (List.mem_cons_of_mem d hx))
    rw [valBE_cons, List.length_cons, pow_succ]
    calc d * 10 ^ l.length + valBE l < d * 10 ^ l.length + 10 ^ l.length := by omega
      _ = (d + 1) * 10 ^ l.length := by ring
      _ ≤ 10 * 10 ^ l.length := by
          exact Nat.mul_le_mul_right _ (by omega)
      _ = 10 ^ l.length * 10 := by ring

theorem lexLt_of_val_lt : ∀ (a b : List Nat), a.length = b.length →
    (∀ d ∈ a, d < 10) → (∀ d ∈ b, d < 10) → valBE a < valBE b → lexLt a b = true := by
  intro a
  induction a with
  | nil =>
    intro b hlen _ _ hv
    cases b with
    | nil => simp [valBE] at hv
    | cons y bs => simp at hlen
  | cons x as ih =>
    intro b hlen ha hb hv
    cases b with
    | nil => simp at hlen
    | cons y bs =>
      have hlen2 : as.length = bs.length := by simpa using hlen
      have hva : valBE (x :: as) = x * 10 ^ as.length + valBE as := valBE_cons x as
      have hvb : valBE (y :: bs) = y * 10 ^ bs.length + valBE bs := valBE_cons y bs
      rcases Nat.lt_trichotomy x y with hxy | hxy | hxy
      · simp [lexLt, hxy]
      · subst hxy
        have hv2 : valBE as < valBE bs := by
          rw [hva, hvb, hlen2] at hv; omega
        have := ih bs hlen2 (fun d hd => ha d (List.mem_cons_of_mem x hd))
          (fun d hd => hb d (List.mem_cons_of_mem x hd)) hv2
        simp [lexLt, Nat.lt_irrefl, this]
      · exfalso
        have hbs : valBE bs < 10 ^ bs.length :=
          valBE_lt bs (fun d hd => hb d (List.mem_cons_of_mem y hd))
        have : valBE (y :: bs) < valBE (x :: as) := by
          rw [hva, hvb, hlen2]
          have h1 : y * 10 ^ bs.length + valBE bs < (y + 1) * 10 ^ bs.length := by
            have := hbs; ring_nf; omega
          have h2 : (y + 1) * 10 ^ bs.length ≤ x * 10 ^ bs.length :=
            Nat.mul_le_mul_right _ (by omega)
          omega
        omega

theorem valBE_append_one (l : List Nat) (d : Nat) :
    valBE (l ++ [d]) = valBE l * 10 + d := by
  simp only [valBE, List.foldl_append, List.foldl_cons, List.foldl_nil]

theorem valBE_reverse (l : List Nat) : valBE l.reverse = ofDigitsLE l := by
  induction l with
  | nil => rfl
  | cons d l ih =>
    simp only [List.reverse_cons, ofDigitsLE, List.foldr_cons]
    rw [valBE_append_one, ih]
    simp only [ofDigitsLE]
    ring

theorem decAux_correct : ∀ (fuel n : Nat), n ≤ fuel →
    ofDigitsLE (decimalDigitsAux fuel n) = n := by
  intro fuel
  induction fuel with
  | zero =>
    intro n h
    have : n = 0 := by omega
    subst this
    rfl
  | succ fuel ih =>
    intro n h
    match n with
    | 0 => rfl
    | m + 1 =>
      have hdiv : (m + 1) / 10 ≤ fuel := by
        have := Nat.div_lt_self (Nat.succ_pos m) (by norm_num : 1 < 10)
        omega
      show ofDigitsLE (((m + 1) % 10) :: decimalDigitsAux fuel ((m + 1) / 10)) = m + 1
      simp only [ofDigitsLE, List.foldr_cons]
      have : List.foldr (fun d acc => d + 10 * acc) 0 (decimalDigitsAux fuel ((m + 1) / 10))
          = (m + 1) / 10 := ih ((m + 1) / 10) hdiv
      rw [this]
      omega

theorem decAux_lt10 : ∀ (fuel n : Nat), ∀ d ∈ decimalDigitsAux fuel n, d < 10 := by
  intro fuel
  induction fuel with
  | zero => intro n d hd; simp [decimalDigitsAux] at hd
  | succ fuel ih =>
    intro n d hd
    match n with
    | 0 => simp [decimalDigitsAux] at hd
    | m + 1 =>
      simp only [decimalDigitsAux, List.mem_cons] at hd
      rcases hd with hd | hd
      · subst hd; exact Nat.mod_lt _ (by norm_num)
      · exact ih _ d hd

theorem decimalDigits_val (t : Nat) : valBE (decimalDigits t) = t := by
  unfold decimalDigits
  split
  · subst ‹t = 0›
    rfl
  · rw [valBE_reverse, decAux_correct t t (Nat.le_refl t)]

theorem decimalDigits_lt10 (t : Nat) : ∀ d ∈ decimalDigits t, d < 10 := by
  intro d hd
  unfold decimalDigits at hd
  split at hd
  · simp at hd; omega
  · rw [List.mem_reverse] at hd
    exact decAux_lt10 t t d hd

theorem msgKey_lt {a b : Nat} (hab : a < b)
    (hlen : (decimalDigits a).length = (decimalDigits b).length) :
    lexLt (msgKey a) (msgKey b) = true := by
  unfold msgKey
  rw [lexLt_append, lexLt_map_add]
  exact lexLt_of_val_lt _ _ hlen (decimalDigits_lt10 a) (decimalDigits_lt10 b)
    (by rw [decimalDigits_val, decimalDigits_val]; exact hab)

/-! ### Helper lemmas: the ordered map -/

theorem kvPut_append (kv : List (List Nat × ChatMessage)) (k : List Nat) (v : ChatMessage)
    (h : ∀ e ∈ kv, lexLt e.1 k = true) : kvPut kv k v = kv ++ [(k, v)] := by
  induction kv with
  | nil => rfl
  | cons e kv ih =>
    have h1 : lexLt e.1 k = true := h e (List.mem_cons_self e kv)
    have hlt : lexLt k e.1 = false := lexLt_asymm h1
    have hne : ¬ k = e.1 := fun heq => lexLt_ne h1 heq.symm
    obtain ⟨k1, v1⟩ := e
    simp only [kvPut, hlt, Bool.false_eq_true, if_false, hne, if_false]
    rw [ih (fun x hx => h x (List.mem_cons_of_mem _ hx))]
    rfl

theorem mem_kvPut {kv : List (List Nat × ChatMessage)} {k : List Nat} {v : ChatMessage}
    {x : List Nat × ChatMessage} (hx : x ∈ kvPut kv k v) : x = (k, v) ∨ x ∈ kv := by
  induction kv with
  | nil =>
    simp [kvPut] at hx
    exact Or.inl hx
  | cons e kv ih =>
    obtain ⟨k1, v1⟩ := e
    simp only [kvPut] at hx
    split at hx
    · rcases List.mem_cons.mp hx with h | h
      · exact Or.inl h
      · exact Or.inr h
    · split at hx
      · rcases List.mem_cons.mp hx with h | h
        · exact Or.inl h
        · exact Or.inr (List.mem_cons_of_mem _ h)
      · rcases List.mem_cons.mp hx with h | h
        · exact Or.inr (by simp [h])
        · rcases ih h with h2 | h2
          · exact Or.inl h2
          · exact Or.inr (List.mem_cons_of_mem _ h2)

/-! ### Helper lemmas: handler behaviour -/

theorem webSocketMessage_valid (st : RoomState) (ws : Nat) (fields : List (String × JsonValue))
    (s name : String) (now : Nat) (sendFails : Nat → Bool)
    (hf : getField fields "message" = some (.jstr s))
    (hs : jsTrim s ≠ "")
    (hatt : getAttachment st.attachments ws = some name) :
    webSocketMessage st ws (.parsed fields) now false sendFails
      = ({ st with kv := kvPut st.kv (msgKey now) ⟨jsTrim s, name, some now⟩ },
          broadcastOuts st.sockets ⟨jsTrim s, name, some now⟩ ws sendFails) := by
  have hs0 : s ≠ "" := fun h2 => hs (by rw [h2]; rfl)
  simp [webSocketMessage, hf, hs0, hs, hatt]

theorem isPrefixOf_append_self (p x : List Nat) : p.isPrefixOf (p ++ x) = true := by
  induction p with
  | nil => simp [List.isPrefixOf]
  | cons a p ih => simp [List.isPrefixOf, ih]

theorem kvList_all_msg (l : List (String × Nat)) (name : String) :
    kvList (l.map (fun e => (msgKey e.2, (⟨jsTrim e.1, name, some e.2⟩ : ChatMessage)))) msgTag
      = l.map (fun e => (⟨jsTrim e.1, name, some e.2⟩ : ChatMessage)) := by
  unfold kvList
  rw [List.filter_eq_self.mpr]
  · rw [List.map_map]
    rfl
  · intro a ha
    rw [List.mem_map] at ha
    obtain ⟨e, _, rfl⟩ := ha
    show msgTag.isPrefixOf (msgKey e.2) = true
    unfold msgKey
    exact isPrefixOf_append_self _ _

theorem runMessages_kv (ws : Nat) (name : String) :
    ∀ (events : List (String × Nat)) (st : RoomState),
      getAttachment st.attachments ws = some name →
      (∀ e ∈ events, jsTrim e.1 ≠ "") →
      (∀ kve ∈ st.kv, ∀ e ∈ events, lexLt kve.1 (msgKey e.2) = true) →
      List.Pairwise (fun a b : String × Nat => lexLt (msgKey a.2) (msgKey b.2) = true) events →
      (runMessages st ws events).kv
        = st.kv ++ events.map
            (fun e => (msgKey e.2, (⟨jsTrim e.1, name, some e.2⟩ : ChatMessage))) := by
  intro events
  induction events with
  | nil => intro st _ _ _ _; simp [runMessages]
  | cons e events ih =>
    intro st hatt hval hbelow hpair
    have hv : jsTrim e.1 ≠ "" := hval e (List.mem_cons_self e events)
    have step := webSocketMessage_valid st ws [("message", .jstr e.1)] e.1 name e.2
      (fun _ => false) (by simp [getField]) hv hatt
    have hput : kvPut st.kv (msgKey e.2) ⟨jsTrim e.1, name, some e.2⟩
        = st.kv ++ [(msgKey e.2, (⟨jsTrim e.1, name, some e.2⟩ : ChatMessage))] :=
      kvPut_append _ _ _ (fun x hx => hbelow x hx e (List.mem_cons_self e events))
    have hpairhead : ∀ e2 ∈ events, lexLt (msgKey e.2) (msgKey e2.2) = true :=
      (List.pairwise_cons.mp hpair).1
    have hfold : runMessages st ws (e :: events)
        = runMessages ((webSocketMessage st ws (.parsed [("message", .jstr e.1)]) e.2 false
            (fun _ => false)).1) ws events := rfl
    have ihres := ih ({ st with kv := kvPut st.kv (msgKey e.2) ⟨jsTrim e.1, name, some e.2⟩ })
      hatt (fun x hx => hval x (List.mem_cons_of_mem e hx))
      (by
        intro kve hkve e2 he2
        rw [hput] at hkve
        rcases List.mem_append.mp hkve with h | h
        · exact hbelow kve h e2 (List.mem_cons_of_mem e he2)
        · rw [List.mem_singleton] at h
          rw [h]
          exact hpairhead e2 he2)
      (List.pairwise_cons.mp hpair).2
    rw [hfold, step]
    simp only at ihres
    rw [ihres, hput, List.map_cons, List.append_assoc, List.singleton_append]

theorem webSocketMessage_putFail (st : RoomState) (ws : Nat)
    (fields : List (String × JsonValue)) (s name : String) (now : Nat)
    (sendFails : Nat → Bool)
    (hf : getField fields "message" = some (.jstr s))
    (hs : jsTrim s ≠ "")
    (hatt : getAttachment st.attachments ws = some name) :
    webSocketMessage st ws (.parsed fields) now true sendFails
      = (st, [Output.logErr "Error processing message:"]) := by
  have hs0 : s ≠ "" := fun h2 => hs (by rw [h2]; rfl)
  simp [webSocketMessage, hf, hs0, hs, hatt]

theorem webSocketMessage_invalid (st : RoomState) (ws : Nat) (data : IncomingData)
    (now : Nat) (putFails : Bool) (sendFails : Nat → Bool)
    (h : validText data = none) :
    (webSocketMessage st ws data now putFails sendFails).1 = st ∧
    ((webSocketMessage st ws data now putFails sendFails).2 = [] ∨
      (webSocketMessage st ws data now putFails sendFails).2
        = [Output.logErr "Error processing message:"]) := by
  cases data with
  | malformed => exact ⟨rfl, Or.inr rfl⟩
  | parsed fields =>
    simp only [webSocketMessage]
    cases hf : getField fields "message" with
    | none => exact ⟨rfl, Or.inl rfl⟩
    | some jv =>
      cases jv with
      | jother => exact ⟨rfl, Or.inl rfl⟩
      | jstr s =>
        by_cases h1 : s = ""
        · exact ⟨by simp [h1], Or.inl (by simp [h1])⟩
        · by_cases h2 : jsTrim s = ""
          · exact ⟨by simp [h1, h2], Or.inl (by simp [h1, h2])⟩
          · exfalso
            simp only [validText] at h
            rw [hf] at h
            simp [h1, h2] at h

theorem validText_some {data : IncomingData} {t : String} (h : validText data = some t) :
    ∃ fields s, data = .parsed fields ∧ getField fields "message" = some (.jstr s) ∧
      jsTrim s ≠ "" ∧ t = jsTrim s := by
  cases data with
  | malformed => simp [validText] at h
  | parsed fields =>
    cases hf : getField fields "message" with
    | none =>
      simp only [validText] at h
      rw [hf] at h
      simp at h
    | some jv =>
      cases jv with
      | jother =>
        simp only [validText] at h
        rw [hf] at h
        simp at h
      | jstr s =>
        simp only [validText] at h
        rw [hf] at h
        by_cases h1 : s = ""
        · simp [h1] at h
        · by_cases h2 : jsTrim s = ""
          · simp [h1, h2] at h
          · simp [h1, h2] at h
            exact ⟨fields, s, rfl, hf, h2, h.symm⟩

theorem send_mem_broadcastOuts {sockets : List Nat} {data : ChatMessage} {self : Nat}
    {sendFails : Nat → Bool} {w : Nat} {m : ChatMessage}
    (hm : Output.send w m ∈ broadcastOuts sockets data self sendFails) : m = data := by
  unfold broadcastOuts at hm
  rw [List.mem_map] at hm
  obtain ⟨w2, _, heq⟩ := hm
  cases hsf : sendFails w2 <;> rw [hsf] at heq <;> simp at heq
  exact heq.2.symm

/-! ### Claim theorems -/

/-- C1 (counterexample): the claim says a Message Store append failure never
suppresses the broadcast.  At this concrete input, socket 1 is another live
connection and the incoming message is valid, yet when `kv.put` throws the
handler's single try/catch produces only the error log: no send (and no send
attempt) reaches socket 1, so the broadcast is suppressed. -/
theorem put_failure_suppresses_broadcast_cex :
    (1 : Nat) ∈ (RoomState.mk [0, 1] [(0, "alice")] []).sockets ∧
    validText (.parsed [("message", .jstr "hi")]) = some "hi" ∧
    (webSocketMessage (RoomState.mk [0, 1] [(0, "alice")] []) 0
        (.parsed [("message", .jstr "hi")]) 100 true (fun _ => false)).2
      = [Output.logErr "Error processing message:"] := by
  decide

/-- C1 (amended): for every valid Message event whose sender has a bound
identity, if the Message Store append fails then the actor does not crash —
the error is caught, logged, and the handler returns normally leaving the
registry and the store unchanged — but the broadcast is suppressed: the
handler emits no send to any connection. -/
theorem put_failure_caught_broadcast_suppressed (st : RoomState) (ws : Nat)
    (fields : List (String × JsonValue)) (s name : String) (now : Nat)
    (sendFails : Nat → Bool)
    (hf : getField fields "message" = some (.jstr s))
    (hs : jsTrim s ≠ "")
    (hatt : getAttachment st.attachments ws = some name) :
    webSocketMessage st ws (.parsed fields) now true sendFails
      = (st, [Output.logErr "Error processing message:"]) := by
  have hs0 : s ≠ "" := fun h2 => hs (by rw [h2]; rfl)
  simp [webSocketMessage, hf, hs0, hs, hatt]

/-- Witness for the amended C1 theorem at a concrete input. -/
theorem put_failure_caught_broadcast_suppressed_witness :
    getField [("message", JsonValue.jstr "hi")] "message" = some (.jstr "hi") ∧
    jsTrim "hi" ≠ "" ∧
    getAttachment [(0, "alice")] 0 = some "alice" ∧
    webSocketMessage (RoomState.mk [0, 1] [(0, "alice")] []) 0
        (.parsed [("message", .jstr "hi")]) 100 true (fun _ => false)
      = (RoomState.mk [0, 1] [(0, "alice")] [],
          [Output.logErr "Error processing message:"]) :=
  ⟨by decide, by decide, by decide,
    put_failure_caught_broadcast_suppressed (RoomState.mk [0, 1] [(0, "alice")] []) 0
      [("message", JsonValue.jstr "hi")] "hi" "alice" 100 (fun _ => false)
      (by decide) (by decide) (by decide)⟩

/-- C2: an incoming Message event whose payload fails to parse, or whose
`message` field is missing, not a string, or empty after trimming, is
silently ignored: the room state (registry and store) is unchanged and no
send or send attempt is emitted to any client. -/
theorem malformed_event_ignored (st : RoomState) (ws : Nat) (data : IncomingData)
    (now : Nat) (putFails : Bool) (sendFails : Nat → Bool)
    (h : validText data = none) :
    (webSocketMessage st ws data now putFails sendFails).1 = st ∧
    ∀ o ∈ (webSocketMessage st ws data now putFails sendFails).2,
      isClientSend o = false := by
  cases data with
  | malformed =>
    refine ⟨rfl, ?_⟩
    intro o ho
    simp only [webSocketMessage, List.mem_singleton] at ho
    rw [ho]
    rfl
  | parsed fields =>
    simp only [webSocketMessage]
    cases hf : getField fields "message" with
    | none => exact ⟨rfl, by intro o ho; simp at ho⟩
    | some jv =>
      cases jv with
      | jother => exact ⟨rfl, by intro o ho; simp at ho⟩
      | jstr s =>
        by_cases h1 : s = ""
        · constructor
          · simp [h1]
          · intro o ho; simp [h1] at ho
        · by_cases h2 : jsTrim s = ""
          · constructor
            · simp [h1, h2]
            · intro o ho; simp [h1, h2] at ho
          · exfalso
            simp only [validText] at h
            rw [hf] at h
            simp [h1, h2] at h

/-- Witness for the C2 theorem: a payload whose text is blank after trim. -/
theorem malformed_event_ignored_witness :
    validText (.parsed [("message", .jstr "   ")]) = none ∧
    ((webSocketMessage (RoomState.mk [0, 1] [(0, "alice")] []) 0
        (.parsed [("message", .jstr "   ")]) 100 false (fun _ => false)).1
      = RoomState.mk [0, 1] [(0, "alice")] [] ∧
    ∀ o ∈ (webSocketMessage (RoomState.mk [0, 1] [(0, "alice")] []) 0
        (.parsed [("message", .jstr "   ")]) 100 false (fun _ => false)).2,
      isClientSend o = false) :=
  ⟨by decide,
    malformed_event_ignored (RoomState.mk [0, 1] [(0, "alice")] []) 0
      (.parsed [("message", .jstr "   ")]) 100 false (fun _ => false) (by decide)⟩

/-- C3: the code computes the storage key `msg_${timestamp}` with no
tie-break, so two valid messages appended within the same millisecond get
the same key and the second `kv.put` overwrites the first: after the two
appends below the store holds a single entry and the first message is gone.
This evaluates the code at the failing input of the code_bug claim. -/
theorem same_millisecond_append_overwrites :
    ((webSocketMessage
        ((webSocketMessage (RoomState.mk [0] [(0, "alice")] [])
            0 (.parsed [("message", .jstr "first")]) 100 false (fun _ => false)).1)
        0 (.parsed [("message", .jstr "second")]) 100 false (fun _ => false)).1).kv
      = [(msgKey 100, ⟨"second", "alice", some 100⟩)] := by
  decide

/-- C5: for a valid Message event the emitted outputs are exactly one send
attempt per registered connection other than the sender, and no output
targets the sender: the sender never receives its own message back. -/
theorem broadcast_excludes_sender (st : RoomState) (ws : Nat)
    (fields : List (String × JsonValue)) (s name : String) (now : Nat)
    (sendFails : Nat → Bool)
    (hf : getField fields "message" = some (.jstr s))
    (hs : jsTrim s ≠ "")
    (hatt : getAttachment st.attachments ws = some name) :
    (webSocketMessage st ws (.parsed fields) now false sendFails).2
      = (st.sockets.filter (fun w => w != ws)).map
          (fun w => if sendFails w then Output.sendFail w
            else Output.send w ⟨jsTrim s, name, some now⟩) ∧
    ∀ o ∈ (webSocketMessage st ws (.parsed fields) now false sendFails).2,
      outTarget o ≠ some ws := by
  have hmain := webSocketMessage_valid st ws fields s name now sendFails hf hs hatt
  constructor
  · rw [hmain]
    rfl
  · intro o ho
    rw [hmain] at ho
    simp only [broadcastOuts, List.mem_map, List.mem_filter] at ho
    obtain ⟨w, ⟨_, hwne⟩, rfl⟩ := ho
    have hne : w ≠ ws := by simpa using hwne
    cases hsf : sendFails w <;> simp [outTarget, hsf, hne]

/-- Witness for the C5 theorem: three sockets, the send to socket 2 fails,
socket 1 still gets the message and the sender 0 gets nothing. -/
theorem broadcast_excludes_sender_witness :
    getField [("message", JsonValue.jstr " hi ")] "message" = some (.jstr " hi ") ∧
    jsTrim " hi " ≠ "" ∧
    getAttachment [(0, "alice")] 0 = some "alice" ∧
    ((webSocketMessage (RoomState.mk [0, 1, 2] [(0, "alice")] []) 0
        (.parsed [("message", .jstr " hi ")]) 100 false (fun w => w == 2)).2
      = ([0, 1, 2].filter (fun w => w != 0)).map
          (fun w => if (w == 2 : Bool) then Output.sendFail w
            else Output.send w ⟨jsTrim " hi ", "alice", some 100⟩) ∧
    ∀ o ∈ (webSocketMessage (RoomState.mk [0, 1, 2] [(0, "alice")] []) 0
        (.parsed [("message", .jstr " hi ")]) 100 false (fun w => w == 2)).2,
      outTarget o ≠ some 0) :=
  ⟨by decide, by decide, by decide,
    broadcast_excludes_sender (RoomState.mk [0, 1, 2] [(0, "alice")] []) 0
      [("message", JsonValue.jstr " hi ")] " hi " "alice" 100 (fun w => w == 2)
      (by decide) (by decide) (by decide)⟩

/-- C4 (counterexample): listing is in lexicographic key order, not insertion
order.  Appending at timestamp 9 and then at timestamp 10, the keys are
`msg_9` and `msg_10`, and `msg_10` sorts lexicographically before `msg_9`
(byte 49 before byte 57), so the listed history and hence the replay is
`[second, first]` — the reverse of insertion order. -/
theorem history_order_digit_boundary_cex :
    kvList ((runMessages (RoomState.mk [0] [(0, "alice")] []) 0
        [("a", 9), ("b", 10)]).kv) msgTag
      = [⟨"b", "alice", some 10⟩, ⟨"a", "alice", some 9⟩] := by
  decide

/-- C4 (amended): from an empty store, for every sequence of valid appends
whose server timestamps are strictly increasing and all have the same number
of decimal digits (as real epoch-millisecond clocks do within an era),
`kv.list({prefix: 'msg_'})` returns exactly the appended messages in
insertion order, and `sendChatHistory` sends a later connector exactly that
history, in that order. -/
theorem history_replay_insertion_order (st : RoomState) (ws newWs : Nat) (name : String)
    (events : List (String × Nat)) (L : Nat)
    (h0 : st.kv = [])
    (hatt : getAttachment st.attachments ws = some name)
    (hval : ∀ e ∈ events, jsTrim e.1 ≠ "")
    (hinc : List.Pairwise (fun a b : String × Nat => a.2 < b.2) events)
    (hlen : ∀ e ∈ events, (decimalDigits e.2).length = L) :
    kvList (runMessages st ws events).kv msgTag
      = events.map (fun e => (⟨jsTrim e.1, name, some e.2⟩ : ChatMessage)) ∧
    sendChatHistory (runMessages st ws events) newWs
      = events.map (fun e => Output.send newWs ⟨jsTrim e.1, name, some e.2⟩) := by
  have hpairlex : List.Pairwise
      (fun a b : String × Nat => lexLt (msgKey a.2) (msgKey b.2) = true) events := by
    refine List.Pairwise.imp_of_mem ?_ hinc
    intro a b ha hb hab
    exact msgKey_lt hab (by rw [hlen a ha, hlen b hb])
  have hkv := runMessages_kv ws name events st hatt hval
    (by intro kve hkve; rw [h0] at hkve; exact absurd hkve (List.not_mem_nil kve)) hpairlex
  rw [h0, List.nil_append] at hkv
  constructor
  · rw [hkv]
    exact kvList_all_msg events name
  · unfold sendChatHistory
    rw [hkv, kvList_all_msg, List.map_map]
    rfl

/-- Witness for the amended C4 theorem: two appends at timestamps 100 and
101 (equal digit count, increasing); listing and replay return them in
insertion order. -/
theorem history_replay_insertion_order_witness :
    (RoomState.mk [0] [(0, "alice")] [] : RoomState).kv = [] ∧
    getAttachment (RoomState.mk [0] [(0, "alice")] [] : RoomState).attachments 0
      = some "alice" ∧
    (∀ e ∈ [("a", 100), ("b", 101)], jsTrim (Prod.fst e) ≠ "") ∧
    List.Pairwise (fun a b : String × Nat => a.2 < b.2) [("a", 100), ("b", 101)] ∧
    (∀ e ∈ ([("a", 100), ("b", 101)] : List (String × Nat)),
      (decimalDigits e.2).length = 3) ∧
    (kvList (runMessages (RoomState.mk [0] [(0, "alice")] []) 0
        [("a", 100), ("b", 101)]).kv msgTag
      = [⟨jsTrim "a", "alice", some 100⟩, ⟨jsTrim "b", "alice", some 101⟩] ∧
    sendChatHistory (runMessages (RoomState.mk [0] [(0, "alice")] []) 0
        [("a", 100), ("b", 101)]) 7
      = [Output.send 7 ⟨jsTrim "a", "alice", some 100⟩,
          Output.send 7 ⟨jsTrim "b", "alice", some 101⟩]) :=
  ⟨rfl, by decide, by decide, by decide, by decide,
    history_replay_insertion_order (RoomState.mk [0] [(0, "alice")] []) 0 7 "alice"
      [("a", 100), ("b", 101)] 3 rfl (by decide) (by decide) (by decide) (by decide)⟩

/-- C6: on a successful Connect, the emitted outputs are exactly: one send
attempt of the `Connected` notice to each previously registered connection
(not to the new one), then every stored message, in stored order, sent
point-to-point to the new connection only, then the 101 response. -/
theorem connect_join_notice_and_history (st : RoomState) (nameParam : Option String)
    (newWs : Nat) (sendFails : Nat → Bool) (hfresh : newWs ∉ st.sockets) :
    (connectFetch st true true nameParam newWs sendFails).2
      = st.sockets.map (fun w => if sendFails w then Output.sendFail w
            else Output.send w ⟨"Connected", resolveName nameParam, none⟩)
        ++ (kvList st.kv msgTag).map (fun m => Output.send newWs m)
        ++ [Output.response 101] := by
  have h1 : st.sockets.filter (fun w => w != newWs) = st.sockets :=
    List.filter_eq_self.mpr (fun a ha => by
      simp only [bne_iff_ne, ne_eq, decide_eq_true_eq]
      exact fun h => hfresh (h ▸ ha))
  simp only [connectFetch, Bool.and_self, if_true, broadcastOuts, sendChatHistory,
    List.filter_append, h1]
  simp

/-- Witness for the C6 theorem: one prior socket 5, one stored message, a
fresh socket 7 joining as "bob". -/
theorem connect_join_notice_and_history_witness :
    (7 : Nat) ∉ (RoomState.mk [5] [(5, "a")]
        [(msgKey 50, ⟨"hi", "a", some 50⟩)] : RoomState).sockets ∧
    (connectFetch (RoomState.mk [5] [(5, "a")] [(msgKey 50, ⟨"hi", "a", some 50⟩)])
        true true (some "bob") 7 (fun _ => false)).2
      = [5].map (fun w => if (fun _ : Nat => false) w then Output.sendFail w
            else Output.send w ⟨"Connected", resolveName (some "bob"), none⟩)
        ++ (kvList [(msgKey 50, ⟨"hi", "a", some 50⟩)] msgTag).map
            (fun m => Output.send 7 m)
        ++ [Output.response 101] :=
  ⟨by decide,
    connect_join_notice_and_history
      (RoomState.mk [5] [(5, "a")] [(msgKey 50, ⟨"hi", "a", some 50⟩)])
      (some "bob") 7 (fun _ => false) (by decide)⟩

/-- C7: neither Connect, nor Disconnect, nor SocketError writes to the
Message Store: the `Connected`/`Disconnected` notices are only broadcast,
never persisted, so a later connector's replay (which reads only the store)
contains only user-authored chat messages. -/
theorem lifecycle_events_no_store_write (st : RoomState) (pathIsWs upgradeHdr : Bool)
    (nameParam : Option String) (newWs ws : Nat) (sendFails : Nat → Bool)
    (code : Nat) (reason : String) (wasClean : Bool) (err : String) :
    (connectFetch st pathIsWs upgradeHdr nameParam newWs sendFails).1.kv = st.kv ∧
    (webSocketClose st ws code reason wasClean sendFails).1.kv = st.kv ∧
    (webSocketError st ws err).1.kv = st.kv := by
  refine ⟨?_, ?_, rfl⟩
  · unfold connectFetch
    split <;> rfl
  · unfold webSocketClose
    cases getAttachment st.attachments ws <;> rfl

/-- C8: the author of the persisted and broadcast message is the identity
bound to the sending connection at connect time and is independent of the
payload content: two payloads with the same `message` field but arbitrary
other fields (e.g. a spoofed `name`/`author` field) produce identical
results, and every send and every newly stored entry carries the
attachment's name. -/
theorem author_from_attachment_not_payload (st : RoomState) (ws : Nat)
    (f1 f2 : List (String × JsonValue)) (now : Nat) (putFails : Bool)
    (sendFails : Nat → Bool)
    (hsame : getField f1 "message" = getField f2 "message") :
    webSocketMessage st ws (.parsed f1) now putFails sendFails
      = webSocketMessage st ws (.parsed f2) now putFails sendFails ∧
    ∀ name, getAttachment st.attachments ws = some name →
      (∀ w m, Output.send w m ∈ (webSocketMessage st ws (.parsed f1) now putFails sendFails).2 →
        m.name = name) ∧
      (∀ ee ∈ (webSocketMessage st ws (.parsed f1) now putFails sendFails).1.kv,
        ee ∉ st.kv → ee.2.name = name) := by
  constructor
  · simp only [webSocketMessage, hsame]
  · intro name hatt
    cases hvt : validText (.parsed f1) with
    | none =>
      obtain ⟨hst, houts⟩ := webSocketMessage_invalid st ws (.parsed f1) now putFails sendFails hvt
      constructor
      · intro w m hm
        rcases houts with h | h <;> rw [h] at hm <;> simp at hm
      · intro ee hee hne
        rw [hst] at hee
        exact absurd hee hne
    | some t =>
      obtain ⟨fields, s, heq, hf, hs, _⟩ := validText_some hvt
      have hfeq : f1 = fields := by injection heq
      subst hfeq
      cases putFails with
      | true =>
        have hmain := webSocketMessage_putFail st ws f1 s name now sendFails hf hs hatt
        constructor
        · intro w m hm
          rw [hmain] at hm
          simp at hm
        · intro ee hee hne
          rw [hmain] at hee
          exact absurd hee hne
      | false =>
        have hmain := webSocketMessage_valid st ws f1 s name now sendFails hf hs hatt
        constructor
        · intro w m hm
          rw [hmain] at hm
          rw [send_mem_broadcastOuts hm]
        · intro ee hee hne
          rw [hmain] at hee
          rcases mem_kvPut hee with h | h
          · rw [h]
          · exact absurd h hne

/-- Witness for the C8 theorem: two payloads with the same text but
different spoofed `name` fields give identical results, and the delivered
message carries the attachment's name "alice", not "eve" or "mallory". -/
theorem author_from_attachment_not_payload_witness :
    getField [("message", JsonValue.jstr "hi"), ("name", JsonValue.jstr "eve")] "message"
      = getField [("message", JsonValue.jstr "hi"), ("name", JsonValue.jstr "mallory")] "message" ∧
    (webSocketMessage (RoomState.mk [0, 1] [(0, "alice")] []) 0
        (.parsed [("message", .jstr "hi"), ("name", .jstr "eve")]) 100 false (fun _ => false)
      = webSocketMessage (RoomState.mk [0, 1] [(0, "alice")] []) 0
        (.parsed [("message", .jstr "hi"), ("name", .jstr "mallory")]) 100 false
        (fun _ => false) ∧
    ∀ name, getAttachment (RoomState.mk [0, 1] [(0, "alice")] [] : RoomState).attachments 0
        = some name →
      (∀ w m, Output.send w m ∈ (webSocketMessage (RoomState.mk [0, 1] [(0, "alice")] []) 0
          (.parsed [("message", .jstr "hi"), ("name", .jstr "eve")]) 100 false
          (fun _ => false)).2 → m.name = name) ∧
      (∀ ee ∈ (webSocketMessage (RoomState.mk [0, 1] [(0, "alice")] []) 0
          (.parsed [("message", .jstr "hi"), ("name", .jstr "eve")]) 100 false
          (fun _ => false)).1.kv,
        ee ∉ (RoomState.mk [0, 1] [(0, "alice")] [] : RoomState).kv → ee.2.name = name)) :=
  ⟨by decide,
    author_from_attachment_not_payload (RoomState.mk [0, 1] [(0, "alice")] []) 0
      [("message", JsonValue.jstr "hi"), ("name", JsonValue.jstr "eve")]
      [("message", JsonValue.jstr "hi"), ("name", JsonValue.jstr "mallory")]
      100 false (fun _ => false) (by decide)⟩

/-- C9: for every set of registered sockets and every pattern of per-socket
send failures, the broadcast loop emits exactly one send attempt per
registered socket other than the excluded one — a failure on one socket is
caught inside the loop (becoming a logged `sendFail`) and neither aborts
delivery to the remaining sockets nor escapes the call. -/
theorem broadcast_isolated_failures (sockets : List Nat) (data : ChatMessage)
    (self : Nat) (sendFails : Nat → Bool) :
    (broadcastOuts sockets data self sendFails).filterMap outTarget
      = sockets.filter (fun w => w != self) := by
  unfold broadcastOuts
  generalize sockets.filter (fun w => w != self) = l
  induction l with
  | nil => rfl
  | cons w l ih =>
    simp only [List.map_cons, List.filterMap_cons]
    cases hsf : sendFails w <;> simp [outTarget, hsf, ih]

/-- C10: the Worker picks the target room actor solely from the `room`
query parameter — two requests with equal `room` fields are routed to the
same actor name — and an absent parameter is replaced by the literal
`"default"`. -/
theorem worker_room_routing :
    (∀ r1 r2 : WorkerRequest, r1.room = r2.room → workerRoute r1 = workerRoute r2) ∧
    (∀ r : WorkerRequest, r.room = none → workerRoute r = "default") := by
  constructor
  · intro r1 r2 h
    unfold workerRoute
    rw [h]
  · intro r h
    unfold workerRoute
    rw [h]

/-- Witness for the C10 theorem: two requests differing in everything but
the room parameter route identically, and a request without the parameter
routes to "default". -/
theorem worker_room_routing_witness :
    workerRoute ⟨some "alpha", none, true, true⟩
      = workerRoute ⟨some "alpha", some "x", false, false⟩ ∧
    workerRoute ⟨none, some "y", true, false⟩ = "default" :=
  ⟨worker_room_routing.1 ⟨some "alpha", none, true, true⟩
      ⟨some "alpha", some "x", false, false⟩ rfl,
    worker_room_routing.2 ⟨none, some "y", true, false⟩ rfl⟩

end HelloChat
